import Mathlib

/-!
# Verification of the Websum web-page summarizer

A shallow embedding of `src/mini_project_s6_.py` (the single source file of the
Websum repository) together with proofs of the specification's testable
properties.

Python strings are modeled as lists of characters (`Str`).  The effectful
boundaries — the HTTP GET inside `load_document` and the per-chunk LLM call
inside `streamlit_mode` — are modeled by explicit outcome values: a
`FetchResult` says whether the request/extraction raised an exception or
produced an extracted text, and the summarization backend is an arbitrary
function from a chunk to `Except` (exception message or generated text).
Everything downstream of those boundaries is translated line by line from
the source.
-/

namespace Websum

/-- Python strings are modeled as lists of characters. -/
abbrev Str := List Char

/-- Models the whitespace test used by Python `str.split()` (the ASCII
whitespace characters; Unicode whitespace characters behave identically and
are omitted from the model). -/
def pyIsSpace (c : Char) : Bool :=
  c = ' ' || c = '\t' || c = '\n' || c = '\r' || c = '\x0b' || c = '\x0c'

/-- Models Python `text.split()` (no separator argument, src line 61): split
on runs of whitespace, discarding leading and trailing whitespace, never
producing empty words. -/
def wordsOf : Str → List Str
  | [] => []
  | c :: t =>
    if pyIsSpace c then wordsOf t
    else (c :: t.takeWhile (fun d => !pyIsSpace d)) ::
      wordsOf (t.dropWhile (fun d => !pyIsSpace d))
termination_by t => t.length
decreasing_by
  · simp
  · have := (List.dropWhile_sublist (l := t) (fun d => !pyIsSpace d)).length_le
    simp
    omega

/-- Models the grouping `[words[i:i+n] for i in range(0, len(words), n)]`
(src line 62) for a positive step `n`: successive contiguous slices of `n`
elements.  (For `n = 0` Python raises `ValueError`; all theorems below
assume `0 < n`.) -/
def chunkList (n : Nat) : List α → List (List α)
  | [] => []
  | x :: xs => (x :: xs.take (n - 1)) :: chunkList n (xs.drop (n - 1))
termination_by l => l.length
decreasing_by
  have := List.length_drop (n - 1) xs
  simp
  omega

/-- Embeds `chunk_text` (src lines 59-62):
`words = text.split()` and
`[" ".join(words[i:i+max_tokens]) for i in range(0, len(words), max_tokens)]`. -/
def chunk_text (text : Str) (max_tokens : Nat := 500) : List Str :=
  (chunkList max_tokens (wordsOf text)).map (List.intercalate [' '])

/-! ## Basic lemmas about `wordsOf` -/

theorem wordsOf_nil : wordsOf [] = [] := by
  rw [wordsOf]

theorem wordsOf_cons_space {c : Char} (t : Str) (h : pyIsSpace c = true) :
    wordsOf (c :: t) = wordsOf t := by
  rw [wordsOf, if_pos h]

theorem wordsOf_cons_word {c : Char} (t : Str) (h : pyIsSpace c = false) :
    wordsOf (c :: t) =
      (c :: t.takeWhile (fun d => !pyIsSpace d)) ::
        wordsOf (t.dropWhile (fun d => !pyIsSpace d)) := by
  rw [wordsOf]
  simp [h]

/-- Every word produced by `wordsOf` is nonempty and contains no whitespace. -/
theorem wordsOf_sound (t : Str) :
    ∀ w ∈ wordsOf t, w ≠ [] ∧ ∀ c ∈ w, pyIsSpace c = false := by
  induction t using wordsOf.induct with
  | case1 => simp [wordsOf_nil]
  | case2 c t h ih =>
      rw [wordsOf_cons_space t h]
      exact ih
  | case3 c t h ih =>
      rw [wordsOf_cons_word t (by simpa using h)]
      intro w hw
      rcases List.mem_cons.mp hw with hw | hw
      · subst hw
        refine ⟨by simp, ?_⟩
        intro d hd
        rcases List.mem_cons.mp hd with hd | hd
        · subst hd; simpa using h
        · have := List.mem_takeWhile_imp hd
          simpa using this
      · exact ih w hw

/-- A nonempty whitespace-free word splits to itself. -/
theorem wordsOf_single (w : Str) (hw : w ≠ [])
    (hns : ∀ c ∈ w, pyIsSpace c = false) : wordsOf w = [w] := by
  obtain ⟨c, cs, rfl⟩ := List.exists_cons_of_ne_nil hw
  rw [wordsOf_cons_word cs (hns c (by simp))]
  have htake : cs.takeWhile (fun d => !pyIsSpace d) = cs :=
    List.takeWhile_eq_self_iff.mpr (by
      intro d hd
      simp [hns d (List.mem_cons_of_mem c hd)])
  have hdrop : cs.dropWhile (fun d => !pyIsSpace d) = [] :=
    List.dropWhile_eq_nil_iff.mpr (by
      intro d hd
      simp [hns d (List.mem_cons_of_mem c hd)])
  rw [htake, hdrop, wordsOf_nil]

/-- Splitting a nonempty whitespace-free word followed by a space and
arbitrary text peels off exactly that word. -/
theorem wordsOf_word_append (w u : Str) (hw : w ≠ [])
    (hns : ∀ c ∈ w, pyIsSpace c = false) :
    wordsOf (w ++ ' ' :: u) = w :: wordsOf u := by
  obtain ⟨c, cs, rfl⟩ := List.exists_cons_of_ne_nil hw
  rw [List.cons_append, wordsOf_cons_word _ (hns c (by simp))]
  have hcs : ∀ d ∈ cs, (fun d => !pyIsSpace d) d = true := by
    intro d hd
    simp [hns d (List.mem_cons_of_mem c hd)]
  have htake : (cs ++ ' ' :: u).takeWhile (fun d => !pyIsSpace d) = cs := by
    rw [List.takeWhile_append_of_pos hcs]
    simp [pyIsSpace]
  have hdrop : (cs ++ ' ' :: u).dropWhile (fun d => !pyIsSpace d) = ' ' :: u := by
    rw [List.dropWhile_append_of_pos hcs]
    simp [pyIsSpace]
  rw [htake, hdrop, wordsOf_cons_space u (by simp [pyIsSpace])]

/-- All-whitespace text splits to no words. -/
theorem wordsOf_all_space (t : Str) (h : ∀ c ∈ t, pyIsSpace c = true) :
    wordsOf t = [] := by
  induction t with
  | nil => exact wordsOf_nil
  | cons c t ih =>
      rw [wordsOf_cons_space t (h c (by simp))]
      exact ih fun d hd => h d (List.mem_cons_of_mem c hd)

/-! ## Basic lemmas about `chunkList` -/

theorem chunkList_nil (n : Nat) : chunkList n ([] : List α) = [] := by
  rw [chunkList]

theorem chunkList_cons (n : Nat) (x : α) (xs : List α) :
    chunkList n (x :: xs) =
      (x :: xs.take (n - 1)) :: chunkList n (xs.drop (n - 1)) := by
  rw [chunkList]

/-- Chunking partitions the list: the concatenation of the chunks is the
original list (contiguity, order preservation, no loss, no duplication). -/
theorem chunkList_flatten (n : Nat) (l : List α) :
    (chunkList n l).flatten = l := by
  induction l using chunkList.induct n with
  | case1 => simp [chunkList_nil]
  | case2 x xs ih =>
      rw [chunkList_cons]
      simp [ih]

theorem chunkList_eq_nil_iff (n : Nat) (l : List α) :
    chunkList n l = [] ↔ l = [] := by
  cases l with
  | nil => simp [chunkList_nil]
  | cons x xs => simp [chunkList_cons]

/-- Every chunk is nonempty and holds at most `n` elements (`n ≥ 1`). -/
theorem mem_chunkList (n : Nat) (hn : 0 < n) (l : List α) :
    ∀ c ∈ chunkList n l, c ≠ [] ∧ c.length ≤ n := by
  induction l using chunkList.induct n with
  | case1 => simp [chunkList_nil]
  | case2 x xs ih =>
      rw [chunkList_cons]
      intro c hc
      rcases List.mem_cons.mp hc with hc | hc
      · subst hc
        refine ⟨by simp, ?_⟩
        have := List.length_take_le (n - 1) xs
        simp
        omega
      · exact ih c hc

/-- Every chunk except possibly the last holds exactly `n` elements. -/
theorem chunkList_dropLast_length (n : Nat) (hn : 0 < n) (l : List α) :
    ∀ c ∈ (chunkList n l).dropLast, c.length = n := by
  induction l using chunkList.induct n with
  | case1 => simp [chunkList_nil]
  | case2 x xs ih =>
      rw [chunkList_cons]
      by_cases hrest : chunkList n (xs.drop (n - 1)) = []
      · simp [hrest]
      · rw [List.dropLast_cons_of_ne_nil hrest]
        intro c hc
        rcases List.mem_cons.mp hc with hc | hc
        · subst hc
          have hxs : ¬ xs.length ≤ n - 1 := by
            intro hle
            exact hrest (by
              rw [chunkList_eq_nil_iff]
              exact List.drop_eq_nil_of_le hle)
          simp
          omega
        · exact ih c hc

/-! ## Lemmas about `List.intercalate` (Python `" ".join` / `"\n\n".join`) -/

theorem intercalate_nil (sep : List α) : List.intercalate sep [] = [] := by
  simp [List.intercalate]

theorem intercalate_single (sep : List α) (a : List α) :
    List.intercalate sep [a] = a := by
  simp [List.intercalate]

theorem intercalate_cons₂ (sep : List α) (a b : List α) (l : List (List α)) :
    List.intercalate sep (a :: b :: l) =
      a ++ sep ++ List.intercalate sep (b :: l) := by
  simp [List.intercalate, List.intersperse]

/-- Joining a nonempty head group and a nonempty tail group inserts one
separator between them. -/
theorem intercalate_append_split (sep : List α) (p m : List (List α))
    (hp : p ≠ []) (hm : m ≠ []) :
    List.intercalate sep (p ++ m) =
      List.intercalate sep p ++ sep ++ List.intercalate sep m := by
  induction p with
  | nil => exact absurd rfl hp
  | cons a p ih =>
      cases p with
      | nil =>
          obtain ⟨b, m', rfl⟩ := List.exists_cons_of_ne_nil hm
          simp [intercalate_single, intercalate_cons₂]
      | cons a' p' =>
          rw [List.cons_append, List.cons_append, intercalate_cons₂,
            intercalate_cons₂, ← List.cons_append, ih (by simp)]
          simp

/-- Joining the per-group joins equals joining the flattened groups, when
every group is nonempty. -/
theorem intercalate_map_intercalate (sep : List α) (parts : List (List (List α)))
    (h : ∀ p ∈ parts, p ≠ []) :
    List.intercalate sep (parts.map (List.intercalate sep)) =
      List.intercalate sep parts.flatten := by
  induction parts with
  | nil => simp [intercalate_nil]
  | cons p parts ih =>
      cases parts with
      | nil => simp [intercalate_single]
      | cons q parts' =>
          have hp : p ≠ [] := h p (by simp)
          have hq : q ≠ [] := h q (by simp)
          have hflat : (q :: parts').flatten ≠ [] := by
            obtain ⟨x, q', rfl⟩ := List.exists_cons_of_ne_nil hq
            simp
          have ih' := ih fun r hr => h r (List.mem_cons_of_mem p hr)
          simp only [List.map_cons] at ih' ⊢
          rw [intercalate_cons₂, List.flatten_cons,
            intercalate_append_split sep p (q :: parts').flatten hp hflat, ih']

/-! ## Composite lemmas about `chunk_text` -/

/-- Space-joining a list of nonempty whitespace-free words and re-splitting
recovers the list (round trip between `" ".join` and `str.split()`). -/
theorem wordsOf_intercalate (ws : List Str)
    (h : ∀ w ∈ ws, w ≠ [] ∧ ∀ c ∈ w, pyIsSpace c = false) :
    wordsOf (List.intercalate [' '] ws) = ws := by
  induction ws with
  | nil => rw [intercalate_nil, wordsOf_nil]
  | cons w ws ih =>
      have hw := h w (by simp)
      cases ws with
      | nil =>
          rw [intercalate_single]
          exact wordsOf_single w hw.1 hw.2
      | cons w' ws' =>
          rw [intercalate_cons₂, List.append_assoc, List.singleton_append,
            wordsOf_word_append w _ hw.1 hw.2,
            ih fun v hv => h v (List.mem_cons_of_mem w hv)]

/-- Every word of a chunk group is a word of the original text. -/
theorem mem_of_mem_chunkList_wordsOf (T : Str) (N : Nat)
    (g : List Str) (hg : g ∈ chunkList N (wordsOf T)) :
    ∀ v ∈ g, v ∈ wordsOf T := by
  intro v hv
  rw [← chunkList_flatten N (wordsOf T)]
  exact List.mem_flatten.mpr ⟨g, hg, hv⟩

/-- Each chunk produced by `chunk_text` splits back to exactly its group of
words. -/
theorem wordsOf_intercalate_of_mem (T : Str) (N : Nat)
    (g : List Str) (hg : g ∈ chunkList N (wordsOf T)) :
    wordsOf (List.intercalate [' '] g) = g :=
  wordsOf_intercalate g fun v hv =>
    wordsOf_sound T v (mem_of_mem_chunkList_wordsOf T N g hg v hv)

/-! ## The loader and the pipeline (src lines 18-33 and 86-120)

The HTTP GET together with `raise_for_status` and the HTML-to-text
extraction (`clean_html`, delegated to BeautifulSoup) is the effectful
boundary of `load_document`.  Its outcome is modeled explicitly: either some
step of `requests.get(...)`, `response.raise_for_status()`, or
`clean_html(response.text)` raised an exception carrying a message, or the
extraction produced a text.  Everything after that point is translated
directly from the `try`/`except` in src lines 23-33. -/

/-- Outcome of the HTTP GET + status check + extraction inside
`load_document`:  `ok t` means no exception was raised and the extracted
visible text is `t`;  `exn e` means some step raised an exception whose
string rendering is `e` (network error, timeout, or non-2xx status turned
into an exception by `raise_for_status`). -/
inductive FetchResult where
  | ok (text_content : Str)
  | exn (e : Str)

/-- Sentinel returned when extraction yields no text (src line 28). -/
def noContentMsg : Str := "No content extracted. Try a different URL.".data

/-- Message prefix of the loader's `except` branch (src line 33). -/
def loadErrorMarker : Str := "Error loading document: ".data

/-- Embeds `load_document` (src lines 18-33): on a raised exception return
`f"Error loading document: {e}"`; on success return the extracted text, or
the no-content sentinel when it is empty (`if not text_content`). -/
def load_document : FetchResult → Str
  | .ok t => if t = [] then noContentMsg else t
  | .exn e => loadErrorMarker ++ e

/-- Models Python `s.startswith(p)` (src line 102). -/
def pyStartswith (s p : Str) : Bool := p.isPrefixOf s

/-- A per-chunk call to the summarization backend: `llm_chain.invoke` either
returns a value whose rendered text is the `ok` payload (the
`getattr(summary, "content", str(summary))` of src line 113, which cannot
itself raise) or raises an exception with message `e`. -/
abbrev Backend := Str → Except Str Str

/-- Placeholder prefix for a failed chunk (src line 117). -/
def chunkErrorMarker : Str := "Error processing chunk: ".data

/-- Embeds the summarization loop of src lines 108-117: one backend call
per chunk in order; a success appends the result text, an exception is
caught and appends `f"Error processing chunk: {e}"`. -/
def summarize_chunks (llm : Backend) (chunks : List Str) : List Str :=
  chunks.map fun chunk =>
    match llm chunk with
    | .ok result_text => result_text
    | .error e => chunkErrorMarker ++ e

/-- Embeds the aggregation `"\n\n".join(summaries)` (src line 119). -/
def aggregate (summaries : List Str) : Str :=
  List.intercalate "\n\n".data summaries

/-- Observable effects of one button-press run of `streamlit_mode`
(src lines 95-120).  `warned` records the `st.warning` call,
`loaderCalled` whether `load_document` was invoked, `errorShown` the
argument of `st.error` if any, `chunksProcessed` the chunk list handed to
the summarization loop (empty when that stage is never reached),
`summarySlot` the value of `st.session_state["summary"]` after the run,
and `succeeded` whether `st.success` was reached. -/
structure RunEffects where
  warned : Bool
  loaderCalled : Bool
  errorShown : Option Str
  chunksProcessed : List Str
  summarySlot : Str
  succeeded : Bool
deriving DecidableEq, Repr

/-- Embeds the body of the `if st.button("Summarize")` block of
`streamlit_mode` (src lines 95-120) as a function of the submitted `url`,
the fetch outcome, the backend, and the session slot value `s0` before the
run.  `if not url` guards the warning; `document_text.startswith("Error")`
guards the early `return`; otherwise the text is chunked with the default
size 500, each chunk summarized, and the joined summaries overwrite the
session slot. -/
def run_summarize (url : Str) (fetch : FetchResult) (llm : Backend)
    (s0 : Str) : RunEffects :=
  if url = [] then
    { warned := true, loaderCalled := false, errorShown := none,
      chunksProcessed := [], summarySlot := s0, succeeded := false }
  else
    let document_text := load_document fetch
    if pyStartswith document_text "Error".data then
      { warned := false, loaderCalled := true,
        errorShown := some document_text,
        chunksProcessed := [], summarySlot := s0, succeeded := false }
    else
      let chunks := chunk_text document_text
      { warned := false, loaderCalled := true, errorShown := none,
        chunksProcessed := chunks,
        summarySlot := aggregate (summarize_chunks llm chunks),
        succeeded := true }

/-! ## Path lemmas for `run_summarize` -/

theorem run_summarize_empty_url (fetch : FetchResult) (llm : Backend)
    (s0 : Str) :
    run_summarize [] fetch llm s0 =
      { warned := true, loaderCalled := false, errorShown := none,
        chunksProcessed := [], summarySlot := s0, succeeded := false } := rfl

theorem run_summarize_error_path (url : Str) (fetch : FetchResult)
    (llm : Backend) (s0 : Str) (hurl : url ≠ [])
    (h : pyStartswith (load_document fetch) "Error".data = true) :
    run_summarize url fetch llm s0 =
      { warned := false, loaderCalled := true,
        errorShown := some (load_document fetch),
        chunksProcessed := [], summarySlot := s0, succeeded := false } := by
  simp [run_summarize, hurl, h]

theorem run_summarize_summary_path (url : Str) (fetch : FetchResult)
    (llm : Backend) (s0 : Str) (hurl : url ≠ [])
    (h : pyStartswith (load_document fetch) "Error".data = false) :
    run_summarize url fetch llm s0 =
      { warned := false, loaderCalled := true, errorShown := none,
        chunksProcessed := chunk_text (load_document fetch),
        summarySlot :=
          aggregate (summarize_chunks llm (chunk_text (load_document fetch))),
        succeeded := true } := by
  simp [run_summarize, hurl, h]

/-- `f"Error loading document: {e}"` starts with `"Error"` for every `e`. -/
theorem loadErrorMarker_startswith (e : Str) :
    pyStartswith (loadErrorMarker ++ e) "Error".data = true := by
  rw [pyStartswith, List.isPrefixOf_iff_prefix]
  refine ⟨" loading document: ".data ++ e, ?_⟩
  rw [← List.append_assoc]
  rfl

/-- Mapping commutes with dropping the last element. -/
theorem dropLast_map (f : α → β) (l : List α) :
    (l.map f).dropLast = l.dropLast.map f := by
  induction l with
  | nil => rfl
  | cons x xs ih =>
      cases xs with
      | nil => rfl
      | cons y ys =>
          simp only [List.map_cons, List.dropLast_cons₂]
          rw [← List.map_cons f y ys, ih]

/-! ## Claim theorems -/

/-- C1: for every input text `T` and positive maximum word count `N`,
joining the chunks of `chunk_text T N` with single spaces reproduces
exactly the whitespace-normalized word sequence of `T`: no word duplicated,
dropped, or reordered. -/
theorem chunker_words_roundtrip (T : Str) (N : Nat) (hN : 0 < N) :
    wordsOf (List.intercalate [' '] (chunk_text T N)) = wordsOf T := by
  rw [chunk_text,
    intercalate_map_intercalate [' '] (chunkList N (wordsOf T))
      (fun p hp => (mem_chunkList N hN (wordsOf T) p hp).1),
    chunkList_flatten]
  exact wordsOf_intercalate (wordsOf T) (wordsOf_sound T)

/-- Witness for C1 at `T = "hello world"`, `N = 1`. -/
theorem chunker_words_roundtrip_witness :
    0 < 1 ∧
      wordsOf (List.intercalate [' '] (chunk_text "hello world".data 1)) =
        wordsOf "hello world".data :=
  ⟨by decide, chunker_words_roundtrip "hello world".data 1 (by decide)⟩

/-- C2: for every `T` and positive `N`, every chunk of `chunk_text T N`
except possibly the last contains exactly `N` words, every chunk (hence the
last) contains between 1 and `N` words, the word sequences of the chunks
concatenate to the word sequence of `T` (contiguous non-overlapping windows
in document order), and an empty or all-whitespace `T` yields no chunks. -/
theorem chunker_window_sizes (T : Str) (N : Nat) (c : Str) (hN : 0 < N) :
    (c ∈ (chunk_text T N).dropLast → (wordsOf c).length = N) ∧
    (c ∈ chunk_text T N →
      1 ≤ (wordsOf c).length ∧ (wordsOf c).length ≤ N) ∧
    ((chunk_text T N).map wordsOf).flatten = wordsOf T ∧
    ((∀ d ∈ T, pyIsSpace d = true) → chunk_text T N = []) := by
  refine ⟨?_, ?_, ?_, ?_⟩
  · intro hc
    rw [chunk_text, dropLast_map] at hc
    obtain ⟨g, hg, rfl⟩ := List.mem_map.mp hc
    rw [wordsOf_intercalate_of_mem T N g (List.mem_of_mem_dropLast hg)]
    exact chunkList_dropLast_length N hN (wordsOf T) g hg
  · intro hc
    rw [chunk_text] at hc
    obtain ⟨g, hg, rfl⟩ := List.mem_map.mp hc
    rw [wordsOf_intercalate_of_mem T N g hg]
    have := mem_chunkList N hN (wordsOf T) g hg
    exact ⟨List.length_pos.mpr this.1, this.2⟩
  · rw [chunk_text, List.map_map]
    have hmap : List.map (wordsOf ∘ List.intercalate [' '])
          (chunkList N (wordsOf T)) =
        List.map id (chunkList N (wordsOf T)) :=
      List.map_congr_left fun g hg => wordsOf_intercalate_of_mem T N g hg
    rw [hmap, List.map_id, chunkList_flatten]
  · intro hsp
    rw [chunk_text, wordsOf_all_space T hsp, chunkList_nil, List.map_nil]

/-- Witness for C2 at `T = "a b c"`, `N = 2`, `c = "a b"`. -/
theorem chunker_window_sizes_witness :
    0 < 2 ∧
      (("a b".data ∈ (chunk_text "a b c".data 2).dropLast →
          (wordsOf "a b".data).length = 2) ∧
        ("a b".data ∈ chunk_text "a b c".data 2 →
          1 ≤ (wordsOf "a b".data).length ∧ (wordsOf "a b".data).length ≤ 2) ∧
        ((chunk_text "a b c".data 2).map wordsOf).flatten =
          wordsOf "a b c".data ∧
        ((∀ d ∈ "a b c".data, pyIsSpace d = true) →
          chunk_text "a b c".data 2 = [])) :=
  ⟨by decide, chunker_window_sizes "a b c".data 2 "a b".data (by decide)⟩

/-- C4: for every run whose HTTP GET raises (network error, timeout, or a
non-2xx status turned into an exception), `load_document` returns a string
beginning with `"Error"`, and the front end shows that string as an error
and halts before the chunker or summarizer runs, leaving the session slot
unchanged. -/
theorem fetch_error_halts_run (url e : Str) (llm : Backend) (s0 : Str)
    (hurl : url ≠ []) :
    pyStartswith (load_document (FetchResult.exn e)) "Error".data = true ∧
    (run_summarize url (FetchResult.exn e) llm s0).errorShown =
      some (load_document (FetchResult.exn e)) ∧
    (run_summarize url (FetchResult.exn e) llm s0).chunksProcessed = [] ∧
    (run_summarize url (FetchResult.exn e) llm s0).succeeded = false ∧
    (run_summarize url (FetchResult.exn e) llm s0).summarySlot = s0 := by
  have hpre : pyStartswith (load_document (FetchResult.exn e)) "Error".data
      = true := loadErrorMarker_startswith e
  rw [run_summarize_error_path url (FetchResult.exn e) llm s0 hurl hpre]
  exact ⟨hpre, rfl, rfl, rfl, rfl⟩

/-- Witness for C4 at `url = "u"`, `e = "timeout"`. -/
theorem fetch_error_halts_run_witness :
    "u".data ≠ ([] : Str) ∧
      (pyStartswith (load_document (FetchResult.exn "timeout".data))
          "Error".data = true ∧
        (run_summarize "u".data (FetchResult.exn "timeout".data)
            (fun c => Except.ok c) "old".data).errorShown =
          some (load_document (FetchResult.exn "timeout".data)) ∧
        (run_summarize "u".data (FetchResult.exn "timeout".data)
            (fun c => Except.ok c) "old".data).chunksProcessed = [] ∧
        (run_summarize "u".data (FetchResult.exn "timeout".data)
            (fun c => Except.ok c) "old".data).succeeded = false ∧
        (run_summarize "u".data (FetchResult.exn "timeout".data)
            (fun c => Except.ok c) "old".data).summarySlot = "old".data) :=
  ⟨by decide,
    fetch_error_halts_run "u".data "timeout".data (fun c => Except.ok c)
      "old".data (by decide)⟩

/-- C5: the aggregate summary of an ordered list of per-chunk summary
strings is their join with a blank-line separator (`"\n\n"`), preserving
order and independent of the strings' content: the empty list yields the
empty aggregate, a singleton yields itself, and a longer list is the head,
the separator, then the aggregate of the tail. -/
theorem aggregate_blank_line_join (s : Str) (rest : List Str)
    (hrest : rest ≠ []) :
    aggregate [] = [] ∧
    aggregate [s] = s ∧
    aggregate (s :: rest) = s ++ "\n\n".data ++ aggregate rest := by
  obtain ⟨r, rest', rfl⟩ := List.exists_cons_of_ne_nil hrest
  exact ⟨intercalate_nil _, intercalate_single _ s, intercalate_cons₂ _ s r rest'⟩

/-- Witness for C5 at `s = "A"`, `rest = ["B"]`. -/
theorem aggregate_blank_line_join_witness :
    ["B".data] ≠ ([] : List Str) ∧
      (aggregate [] = [] ∧
        aggregate ["A".data] = "A".data ∧
        aggregate ["A".data, "B".data] =
          "A".data ++ "\n\n".data ++ aggregate ["B".data]) :=
  ⟨by decide, aggregate_blank_line_join "A".data ["B".data] (by decide)⟩

/-- C7: a run that fails at the fetch stage (the loaded text starts with
`"Error"`) leaves the session summary slot unchanged and does not reach
`st.success`; and any run that changes the slot is one that reached the
summarization stage and completed it (its chunk list was processed and
`st.success` was reached). -/
theorem fetch_failure_preserves_summary_slot (url : Str)
    (fetch : FetchResult) (llm : Backend) (s0 : Str) :
    (pyStartswith (load_document fetch) "Error".data = true →
      (run_summarize url fetch llm s0).summarySlot = s0 ∧
      (run_summarize url fetch llm s0).succeeded = false) ∧
    ((run_summarize url fetch llm s0).summarySlot ≠ s0 →
      (run_summarize url fetch llm s0).succeeded = true ∧
      (run_summarize url fetch llm s0).chunksProcessed =
        chunk_text (load_document fetch)) := by
  by_cases hurl : url = []
  · subst hurl
    rw [run_summarize_empty_url]
    exact ⟨fun _ => ⟨rfl, rfl⟩, fun hne => absurd rfl hne⟩
  · by_cases herr : pyStartswith (load_document fetch) "Error".data = true
    · rw [run_summarize_error_path url fetch llm s0 hurl herr]
      exact ⟨fun _ => ⟨rfl, rfl⟩, fun hne => absurd rfl hne⟩
    · rw [run_summarize_summary_path url fetch llm s0 hurl
        (Bool.not_eq_true _ ▸ herr)]
      exact ⟨fun h => absurd h herr, fun _ => ⟨rfl, rfl⟩⟩

/-- Witness for C7 at a failing fetch. -/
theorem fetch_failure_preserves_summary_slot_witness :
    (pyStartswith (load_document (FetchResult.exn "x".data)) "Error".data
        = true →
      (run_summarize "u".data (FetchResult.exn "x".data)
          (fun c => Except.ok c) "old".data).summarySlot = "old".data ∧
      (run_summarize "u".data (FetchResult.exn "x".data)
          (fun c => Except.ok c) "old".data).succeeded = false) ∧
    ((run_summarize "u".data (FetchResult.exn "x".data)
          (fun c => Except.ok c) "old".data).summarySlot ≠ "old".data →
      (run_summarize "u".data (FetchResult.exn "x".data)
          (fun c => Except.ok c) "old".data).succeeded = true ∧
      (run_summarize "u".data (FetchResult.exn "x".data)
          (fun c => Except.ok c) "old".data).chunksProcessed =
        chunk_text (load_document (FetchResult.exn "x".data))) :=
  fetch_failure_preserves_summary_slot "u".data (FetchResult.exn "x".data)
    (fun c => Except.ok c) "old".data

/-- C8: a submission with an empty URL string never enters the fetching
state: the front end warns and calls neither the loader, nor the chunker,
nor the summarizer, and the session slot keeps its previous value. -/
theorem empty_url_short_circuits (fetch : FetchResult) (llm : Backend)
    (s0 : Str) :
    run_summarize [] fetch llm s0 =
      { warned := true, loaderCalled := false, errorShown := none,
        chunksProcessed := [], summarySlot := s0, succeeded := false } :=
  run_summarize_empty_url fetch llm s0

/-- C9: `load_document` is total at its boundary: whatever the outcome of
the HTTP request, status check and extraction — including any raised
exception — it returns a string, and that string is either the extracted
text (when nonempty), the no-content sentinel, or a message prefixed
`"Error loading document: "`. -/
theorem load_document_total_trichotomy (r : FetchResult) :
    (∃ t, r = FetchResult.ok t ∧ t ≠ [] ∧ load_document r = t) ∨
    load_document r = noContentMsg ∨
    pyStartswith (load_document r) loadErrorMarker = true := by
  cases r with
  | ok t =>
      by_cases ht : t = []
      · subst ht
        right; left
        rw [load_document, if_pos rfl]
      · left
        exact ⟨t, rfl, ht, by rw [load_document, if_neg ht]⟩
  | exn e =>
      right; right
      rw [load_document, pyStartswith, List.isPrefixOf_iff_prefix]
      exact ⟨e, rfl⟩

/-- C10: the front end discriminates fetch success from failure only by a
string-prefix test, so a successfully fetched page whose extracted text
itself begins with `"Error"` is treated as a fetch failure: it is shown via
`st.error` and the run halts before chunking, even though fetch and
extraction succeeded. -/
theorem error_prefixed_page_treated_as_failure (t url : Str)
    (llm : Backend) (s0 : Str) (ht : t ≠ [])
    (hpre : pyStartswith t "Error".data = true) (hurl : url ≠ []) :
    load_document (FetchResult.ok t) = t ∧
    (run_summarize url (FetchResult.ok t) llm s0).errorShown = some t ∧
    (run_summarize url (FetchResult.ok t) llm s0).chunksProcessed = [] ∧
    (run_summarize url (FetchResult.ok t) llm s0).succeeded = false ∧
    (run_summarize url (FetchResult.ok t) llm s0).summarySlot = s0 := by
  have hload : load_document (FetchResult.ok t) = t := by
    rw [load_document, if_neg ht]
  rw [run_summarize_error_path url (FetchResult.ok t) llm s0 hurl
    (by rw [hload]; exact hpre), hload]
  exact ⟨rfl, rfl, rfl, rfl, rfl⟩

/-- Witness for C10 at the page text `"Error codes explained"`. -/
theorem error_prefixed_page_treated_as_failure_witness :
    "Error codes explained".data ≠ ([] : Str) ∧
    pyStartswith "Error codes explained".data "Error".data = true ∧
    "u".data ≠ ([] : Str) ∧
      (load_document (FetchResult.ok "Error codes explained".data) =
          "Error codes explained".data ∧
        (run_summarize "u".data
            (FetchResult.ok "Error codes explained".data)
            (fun c => Except.ok c) "old".data).errorShown =
          some "Error codes explained".data ∧
        (run_summarize "u".data
            (FetchResult.ok "Error codes explained".data)
            (fun c => Except.ok c) "old".data).chunksProcessed = [] ∧
        (run_summarize "u".data
            (FetchResult.ok "Error codes explained".data)
            (fun c => Except.ok c) "old".data).succeeded = false ∧
        (run_summarize "u".data
            (FetchResult.ok "Error codes explained".data)
            (fun c => Except.ok c) "old".data).summarySlot = "old".data) :=
  ⟨by decide, by decide, by decide,
    error_prefixed_page_treated_as_failure "Error codes explained".data
      "u".data (fun c => Except.ok c) "old".data (by decide) (by decide)
      (by decide)⟩

/-! ## C3: per-chunk fault containment -/

/-- C3: in every run that reaches the summarization stage, if the backend
fails on the chunk at position `j` while succeeding on the chunk at
position `k`, the run still completes (`st.success` is reached), one
summary is produced per chunk, position `j` of the summary list holds the
failure placeholder `"Error processing chunk: "` followed by the exception
message, position `k` holds the successful summary, and the aggregate
written to the session slot is the blank-line join of exactly that list:
a per-chunk failure neither aborts the run nor loses other summaries. -/
theorem per_chunk_failure_contained (url : Str) (fetch : FetchResult)
    (llm : Backend) (s0 : Str) (j k : Nat) (cj ck e t : Str)
    (hurl : url ≠ [])
    (hok : pyStartswith (load_document fetch) "Error".data = false)
    (hj : (chunk_text (load_document fetch))[j]? = some cj)
    (hk : (chunk_text (load_document fetch))[k]? = some ck)
    (hfail : llm cj = Except.error e)
    (hsucc : llm ck = Except.ok t) :
    (run_summarize url fetch llm s0).succeeded = true ∧
    (summarize_chunks llm (chunk_text (load_document fetch))).length =
      (chunk_text (load_document fetch)).length ∧
    (summarize_chunks llm (chunk_text (load_document fetch)))[j]? =
      some (chunkErrorMarker ++ e) ∧
    (summarize_chunks llm (chunk_text (load_document fetch)))[k]? =
      some t ∧
    (run_summarize url fetch llm s0).summarySlot =
      aggregate (summarize_chunks llm (chunk_text (load_document fetch))) := by
  rw [run_summarize_summary_path url fetch llm s0 hurl hok]
  refine ⟨rfl, ?_, ?_, ?_, rfl⟩
  · rw [summarize_chunks, List.length_map]
  · rw [summarize_chunks, List.getElem?_map, hj]
    simp [hfail]
  · rw [summarize_chunks, List.getElem?_map, hk]
    simp [hsucc]

/-- A 501-word text (501 copies of the word `"a"`), which the default
chunk size 500 splits into two chunks. -/
def manyWords : Str := List.intercalate [' '] (List.replicate 501 ['a'])

theorem wordsOf_manyWords : wordsOf manyWords = List.replicate 501 ['a'] :=
  wordsOf_intercalate (List.replicate 501 ['a']) fun w hw => by
    rw [List.eq_of_mem_replicate hw]
    exact ⟨by decide, by decide⟩

theorem chunkList_replicate_501 (x : α) :
    chunkList 500 (List.replicate 501 x) =
      [List.replicate 500 x, [x]] := by
  rw [show (501 : Nat) = 500 + 1 from rfl, List.replicate_succ, chunkList_cons]
  rw [show (500 : Nat) - 1 = 499 from rfl, List.take_replicate,
    List.drop_replicate]
  rw [show min 499 500 = 499 from rfl, show (500 : Nat) - 499 = 1 from rfl]
  rw [show List.replicate 1 x = [x] from rfl, chunkList_cons, List.take_nil,
    List.drop_nil, chunkList_nil,
    show x :: List.replicate 499 x = List.replicate 500 x from rfl]

theorem chunk_text_manyWords :
    chunk_text manyWords =
      [List.intercalate [' '] (List.replicate 500 ['a']), ['a']] := by
  rw [chunk_text, wordsOf_manyWords, chunkList_replicate_501, List.map_cons,
    List.map_cons, List.map_nil, intercalate_single]

theorem manyWords_ne_nil : manyWords ≠ [] := by
  intro h
  have hw := wordsOf_manyWords
  rw [h, wordsOf_nil] at hw
  exact absurd hw.symm (by simp)

theorem load_document_manyWords :
    load_document (FetchResult.ok manyWords) = manyWords := by
  rw [load_document, if_neg manyWords_ne_nil]

theorem manyWords_not_error_prefixed :
    pyStartswith manyWords "Error".data = false := by decide

/-- Witness for C3: a two-chunk run (501 words, default chunk size 500)
whose backend fails exactly on the second chunk `"a"` and succeeds on the
first. -/
theorem per_chunk_failure_contained_witness :
    "u".data ≠ ([] : Str) ∧
    pyStartswith (load_document (FetchResult.ok manyWords)) "Error".data
      = false ∧
    (chunk_text (load_document (FetchResult.ok manyWords)))[0]? =
      some (List.intercalate [' '] (List.replicate 500 ['a'])) ∧
    (chunk_text (load_document (FetchResult.ok manyWords)))[1]? =
      some ['a'] ∧
      ((run_summarize "u".data (FetchResult.ok manyWords)
          (fun c => if c = ['a'] then Except.error "boom".data
            else Except.ok "ok".data) []).succeeded = true ∧
        (summarize_chunks
            (fun c => if c = ['a'] then Except.error "boom".data
              else Except.ok "ok".data)
            (chunk_text (load_document (FetchResult.ok manyWords)))).length =
          (chunk_text (load_document (FetchResult.ok manyWords))).length ∧
        (summarize_chunks
            (fun c => if c = ['a'] then Except.error "boom".data
              else Except.ok "ok".data)
            (chunk_text (load_document (FetchResult.ok manyWords))))[1]? =
          some (chunkErrorMarker ++ "boom".data) ∧
        (summarize_chunks
            (fun c => if c = ['a'] then Except.error "boom".data
              else Except.ok "ok".data)
            (chunk_text (load_document (FetchResult.ok manyWords))))[0]? =
          some "ok".data ∧
        (run_summarize "u".data (FetchResult.ok manyWords)
            (fun c => if c = ['a'] then Except.error "boom".data
              else Except.ok "ok".data) []).summarySlot =
          aggregate (summarize_chunks
            (fun c => if c = ['a'] then Except.error "boom".data
              else Except.ok "ok".data)
            (chunk_text (load_document (FetchResult.ok manyWords))))) :=
  ⟨by decide,
    by rw [load_document_manyWords]; exact manyWords_not_error_prefixed,
    by rw [load_document_manyWords, chunk_text_manyWords]; rfl,
    by rw [load_document_manyWords, chunk_text_manyWords]; rfl,
    per_chunk_failure_contained "u".data (FetchResult.ok manyWords)
      (fun c => if c = ['a'] then Except.error "boom".data
        else Except.ok "ok".data)
      [] 1 0 ['a'] (List.intercalate [' '] (List.replicate 500 ['a']))
      "boom".data "ok".data
      (by decide)
      (by rw [load_document_manyWords]; exact manyWords_not_error_prefixed)
      (by rw [load_document_manyWords, chunk_text_manyWords]; rfl)
      (by rw [load_document_manyWords, chunk_text_manyWords]; rfl)
      rfl
      rfl⟩

/-! ## C6: the no-content sentinel -/

theorem load_document_empty_extraction :
    load_document (FetchResult.ok []) = noContentMsg := by
  rw [load_document, if_pos rfl]

theorem noContent_not_error_prefixed :
    pyStartswith noContentMsg "Error".data = false := by decide

set_option maxRecDepth 8192 in
theorem wordsOf_noContent :
    wordsOf noContentMsg =
      ["No".data, "content".data, "extracted.".data, "Try".data, "a".data,
        "different".data, "URL.".data] := by
  simp [noContentMsg, wordsOf, pyIsSpace]

/-- A nonempty list of at most `n` elements forms a single chunk. -/
theorem chunkList_of_length_le (n : Nat) (l : List α) (hne : l ≠ [])
    (hlen : l.length ≤ n) : chunkList n l = [l] := by
  obtain ⟨x, xs, rfl⟩ := List.exists_cons_of_ne_nil hne
  rw [chunkList_cons, List.take_of_length_le (by simp at hlen; omega),
    List.drop_eq_nil_of_le (by simp at hlen; omega), chunkList_nil]

theorem chunk_text_noContent : chunk_text noContentMsg = [noContentMsg] := by
  rw [chunk_text, wordsOf_noContent,
    chunkList_of_length_le 500 _ (by decide) (by decide),
    List.map_cons, List.map_nil]
  decide

/-- C6 counterexample: in the concrete run with URL `"u"`, a successful
fetch whose extraction is empty, and an echo backend, the sentinel IS
further processed by the chunking and summarization stages — it is chunked
into the single chunk `[noContentMsg]`, handed to the summarizer, and its
summary even becomes the session "summary" — refuting the claim that the
sentinel is not further processed. -/
theorem no_content_sentinel_is_chunked :
    (run_summarize "u".data (FetchResult.ok [])
        (fun c => Except.ok c) []).chunksProcessed = [noContentMsg] ∧
    (run_summarize "u".data (FetchResult.ok [])
        (fun c => Except.ok c) []).succeeded = true ∧
    (run_summarize "u".data (FetchResult.ok [])
        (fun c => Except.ok c) []).summarySlot = noContentMsg := by
  have hpre : pyStartswith (load_document (FetchResult.ok []))
      "Error".data = false := by
    rw [load_document_empty_extraction]
    exact noContent_not_error_prefixed
  rw [run_summarize_summary_path "u".data (FetchResult.ok [])
    (fun c => Except.ok c) [] (by decide) hpre]
  refine ⟨?_, rfl, ?_⟩
  · show chunk_text (load_document (FetchResult.ok [])) = [noContentMsg]
    rw [load_document_empty_extraction, chunk_text_noContent]
  · show aggregate (summarize_chunks (fun c => Except.ok c)
        (chunk_text (load_document (FetchResult.ok [])))) = noContentMsg
    rw [load_document_empty_extraction, chunk_text_noContent]
    show aggregate [noContentMsg] = noContentMsg
    exact intercalate_single _ _

/-- C6 (amended): when the fetch succeeds but extraction yields an empty
string, `load_document` returns the distinguishable no-content sentinel;
the sentinel is treated as non-fatal (it does not trigger the error halt),
but it IS further processed: the run proceeds to chunk the sentinel itself
(into the single chunk `[noContentMsg]`) and to summarize it. -/
theorem no_content_sentinel_flows_to_chunker (url : Str) (llm : Backend)
    (s0 : Str) (hurl : url ≠ []) :
    load_document (FetchResult.ok []) = noContentMsg ∧
    (run_summarize url (FetchResult.ok []) llm s0).errorShown = none ∧
    (run_summarize url (FetchResult.ok []) llm s0).succeeded = true ∧
    (run_summarize url (FetchResult.ok []) llm s0).chunksProcessed =
      [noContentMsg] := by
  have hpre : pyStartswith (load_document (FetchResult.ok []))
      "Error".data = false := by
    rw [load_document_empty_extraction]
    exact noContent_not_error_prefixed
  rw [run_summarize_summary_path url (FetchResult.ok []) llm s0 hurl hpre]
  refine ⟨load_document_empty_extraction, rfl, rfl, ?_⟩
  show chunk_text (load_document (FetchResult.ok [])) = [noContentMsg]
  rw [load_document_empty_extraction, chunk_text_noContent]

/-- Witness for the amended C6 at `url = "u"`. -/
theorem no_content_sentinel_flows_to_chunker_witness :
    "u".data ≠ ([] : Str) ∧
      (load_document (FetchResult.ok []) = noContentMsg ∧
        (run_summarize "u".data (FetchResult.ok [])
            (fun c => Except.ok c) []).errorShown = none ∧
        (run_summarize "u".data (FetchResult.ok [])
            (fun c => Except.ok c) []).succeeded = true ∧
        (run_summarize "u".data (FetchResult.ok [])
            (fun c => Except.ok c) []).chunksProcessed = [noContentMsg]) :=
  ⟨by decide,
    no_content_sentinel_flows_to_chunker "u".data (fun c => Except.ok c) []
      (by decide)⟩

end Websum
